import Mathlib

/-!
Verification of the credit-quota proxy service.

This file gives a shallow embedding of the quota / usage / credential logic
of the proxy service (src/limits.ts, src/quota.ts, src/usage.ts,
src/pricing.ts, src/oauth.ts, src/proxy.ts) and proves or refutes the
specified properties.  Numbers that are JavaScript numbers used for exact
integer or fractional arithmetic are embedded as Nat / Int / Rat; database
effects are embedded as explicit state passing; the outcome of a network
call is a parameter of the function that performs it.
-/

namespace ProxySvc

/-! ## Plans (src/limits.ts : PLAN_LIMITS) -/

inductive PlanType
  | free
  | pro
  | max5x
  | max20x
deriving Repr, DecidableEq

structure PlanLimits where
  creditsPerWindow : Nat
  windowHours : Nat
  allowedModels : List String
deriving Repr, DecidableEq

def PLAN_LIMITS : PlanType → PlanLimits
  | .free   => ⟨10000, 24, [("haiku"), ("sonnet")]⟩
  | .pro    => ⟨10000000, 5, [("haiku"), ("sonnet"), ("opus")]⟩
  | .max5x  => ⟨50000000, 5, [("haiku"), ("sonnet"), ("opus")]⟩
  | .max20x => ⟨200000000, 5, [("haiku"), ("sonnet"), ("opus")]⟩

/-! ## Credit model (src/limits.ts : getModelWeight, calculateCreditsUsed) -/

/-- Embedding of JavaScript `s.toLowerCase()` restricted to the ASCII model
identifiers the service handles. -/
def jsToLower (s : String) : List Char :=
  s.data.map Char.toLower

/-- Embedding of JavaScript `hay.includes(needle)` : substring containment. -/
def jsIncludes (hay needle : List Char) : Bool :=
  decide (needle <:+: hay)

/-- Embedding of getModelWeight: case-insensitive substring dispatch, opus
first, then sonnet, then haiku, defaulting to the sonnet weight. -/
def getModelWeight (model : String) : ℚ :=
  let lowerModel := jsToLower model
  if jsIncludes lowerModel (jsToLower ("opus")) then 5
  else if jsIncludes lowerModel (jsToLower ("sonnet")) then 1
  else if jsIncludes lowerModel (jsToLower ("haiku")) then (1 : ℚ) / 4
  else 1

/-- Embedding of calculateCreditsUsed: weight times tokens, rounded up. -/
def calculateCreditsUsed (model : String) (tokens : Nat) : ℤ :=
  ⌈getModelWeight model * (tokens : ℚ)⌉

/-! ## Effective limit and rolling window (src/quota.ts) -/

/-- Embedding of calculateEffectiveLimit: `Math.floor(planLimit * pct / 100)`;
Nat division is exactly floor division on the non-negative inputs used. -/
def calculateEffectiveLimit (planLimit quotaPercentage : Nat) : Nat :=
  planLimit * quotaPercentage / 100

/-- One row of api_key_usage_history as seen by the window query. -/
structure UsageRecord where
  timestamp : ℤ
  creditsUsed : Nat
  cost : ℚ
  model : String
deriving Repr, DecidableEq

def msPerHour : ℤ := 3600000

/-- Start of the rolling window: `now - windowHours * 60 * 60 * 1000`. -/
def windowStartTime (now : ℤ) (windowHours : Nat) : ℤ :=
  now - (windowHours : ℤ) * msPerHour

/-- The SQL predicate `timestamp >= $windowStart` of the window query. -/
def inWindow (now : ℤ) (windowHours : Nat) (r : UsageRecord) : Bool :=
  decide (windowStartTime now windowHours ≤ r.timestamp)

/-- Embedding of getNextResetTime. -/
def getNextResetTime (oldestTimestamp : Option ℤ) (windowHours : Nat) (now : ℤ) : ℤ :=
  match oldestTimestamp with
  | none => now + (windowHours : ℤ) * msPerHour
  | some t => t + (windowHours : ℤ) * msPerHour

/-- One step of the oldest-timestamp scan of getRollingWindowUsage
(`if oldestTimestamp === null || timestamp < oldestTimestamp`). -/
def oldStep (acc : Option ℤ) (r : UsageRecord) : Option ℤ :=
  match acc with
  | none => some r.timestamp
  | some t => if r.timestamp < t then some r.timestamp else some t

/-- The oldest-timestamp scan of getRollingWindowUsage (the fold over
`MIN(timestamp)` rows, which computes the minimum timestamp of the
in-window records). -/
def oldestOf (rs : List UsageRecord) : Option ℤ :=
  rs.foldl oldStep none

structure WindowUsageStats where
  currentCredits : Nat
  currentRequests : Nat
  currentCost : ℚ
  oldestRequestTimestamp : Option ℤ
  windowStart : ℤ
  windowEnd : ℤ
  nextResetAt : ℤ
deriving Repr, DecidableEq

/-- Embedding of getRollingWindowUsage: the SQL query keeps the records with
`timestamp >= windowStart`, groups them by model and sums; the JS loop then
adds the per-group sums back together, so the totals are the plain sums over
the in-window records, and the tracked oldest timestamp is their minimum. -/
def getRollingWindowUsage (records : List UsageRecord) (now : ℤ) (windowHours : Nat) :
    WindowUsageStats :=
  let winRecords := records.filter (inWindow now windowHours)
  let totalCredits := (winRecords.map UsageRecord.creditsUsed).sum
  let totalCost := (winRecords.map UsageRecord.cost).sum
  let totalRequests := winRecords.length
  let oldestTimestamp := oldestOf winRecords
  { currentCredits := totalCredits
    currentRequests := totalRequests
    currentCost := totalCost
    oldestRequestTimestamp := oldestTimestamp
    windowStart := windowStartTime now windowHours
    windowEnd := now
    nextResetAt := getNextResetTime oldestTimestamp windowHours now }

/-- Embedding of JavaScript `Math.round` on the exact rational value. -/
def jsRound (q : ℚ) : ℤ :=
  ⌊q + 1 / 2⌋

structure UsagePercentages where
  creditPercentage : ℤ
  isOverLimit : Bool
deriving Repr, DecidableEq

structure QuotaCheckResult where
  allowed : Bool
  percentages : UsagePercentages
  usage : WindowUsageStats
  resetTime : ℤ
deriving Repr, DecidableEq

/-- Embedding of checkQuotaLimit.  `quotaPercentageRow` is the
`quota_percentage` column of the key row, `none` embedding SQL NULL (the
`?? 100` default).  The decision compares the exact (unrounded) credit
percentage against 100; only the reported percentage is rounded. -/
def checkQuotaLimit (quotaPercentageRow : Option Nat) (records : List UsageRecord)
    (now : ℤ) (planType : PlanType) : QuotaCheckResult :=
  let limits := PLAN_LIMITS planType
  let quotaPercentage := quotaPercentageRow.getD 100
  let effectiveCreditsLimit := calculateEffectiveLimit limits.creditsPerWindow quotaPercentage
  let usage := getRollingWindowUsage records now limits.windowHours
  let creditPercentage : ℚ := (usage.currentCredits : ℚ) / (effectiveCreditsLimit : ℚ) * 100
  let isOverLimit := decide (100 ≤ creditPercentage)
  let percentages : UsagePercentages :=
    { creditPercentage := jsRound creditPercentage, isOverLimit := isOverLimit }
  let resetTime := getNextResetTime usage.oldestRequestTimestamp limits.windowHours now
  { allowed := !isOverLimit
    percentages := percentages
    usage := usage
    resetTime := resetTime }

/-- The in-window credit sum of a credential, as checkQuotaLimit sees it. -/
def creditsInWindow (records : List UsageRecord) (now : ℤ) (planType : PlanType) : Nat :=
  (getRollingWindowUsage records now (PLAN_LIMITS planType).windowHours).currentCredits

/-- The effective limit checkQuotaLimit uses for a key row. -/
def effectiveLimitOf (quotaPercentageRow : Option Nat) (planType : PlanType) : Nat :=
  calculateEffectiveLimit (PLAN_LIMITS planType).creditsPerWindow (quotaPercentageRow.getD 100)

/-- Modelled from the spec: the reference decision procedure of §4.4, which
rounds the percentage first and admits exactly when the rounded
percentageUsed is strictly below 100.  Written from the spec text, to be
compared with checkQuotaLimit. -/
def specQuotaDecision (quotaPercentageRow : Option Nat) (creditsUsed : Nat)
    (planType : PlanType) : Bool :=
  let pct := quotaPercentageRow.getD 100
  let eff := calculateEffectiveLimit (PLAN_LIMITS planType).creditsPerWindow pct
  let percentageUsed := jsRound ((creditsUsed : ℚ) / (eff : ℚ) * 100)
  decide (percentageUsed < 100)

/-! ## Arithmetic helper lemmas -/

lemma effectiveLimit_pos (planType : PlanType) (pct : Nat) (hpct : 1 ≤ pct) :
    0 < calculateEffectiveLimit (PLAN_LIMITS planType).creditsPerWindow pct := by
  have hplan : 10000 ≤ (PLAN_LIMITS planType).creditsPerWindow := by
    cases planType <;> simp [PLAN_LIMITS]
  have : 100 ≤ (PLAN_LIMITS planType).creditsPerWindow * pct :=
    le_trans (by omega) (Nat.mul_le_mul hplan hpct)
  exact Nat.div_pos this (by norm_num)

lemma over_iff_le (c e : Nat) (he : 0 < e) :
    (100 : ℚ) ≤ (c : ℚ) / (e : ℚ) * 100 ↔ e ≤ c := by
  have heq : (0 : ℚ) < (e : ℚ) := by exact_mod_cast he
  rw [div_mul_eq_mul_div, le_div_iff₀ heq]
  constructor
  · intro h
    have : (e : ℚ) ≤ (c : ℚ) := by nlinarith
    exact_mod_cast this
  · intro h
    have hc : (e : ℚ) ≤ (c : ℚ) := by exact_mod_cast h
    nlinarith

lemma checkQuotaLimit_allowed (pr : Option Nat) (records : List UsageRecord)
    (now : ℤ) (pt : PlanType) :
    (checkQuotaLimit pr records now pt).allowed =
      !decide ((100 : ℚ) ≤ (creditsInWindow records now pt : ℚ) /
        (effectiveLimitOf pr pt : ℚ) * 100) :=
  rfl

lemma allowed_iff_lt (pr : Option Nat) (records : List UsageRecord) (now : ℤ)
    (pt : PlanType) (hpct : 1 ≤ pr.getD 100) :
    (checkQuotaLimit pr records now pt).allowed = true ↔
      creditsInWindow records now pt < effectiveLimitOf pr pt := by
  have he := effectiveLimit_pos pt (pr.getD 100) hpct
  have hiff := over_iff_le (creditsInWindow records now pt) (effectiveLimitOf pr pt) he
  have hbool : ∀ b : Bool, ((!b) = true ↔ b = false) := by decide
  rw [checkQuotaLimit_allowed, hbool, decide_eq_false_iff_not, hiff, not_le]

/-! ## Claim C1 -/

/-- C1: for every credential (quota-percentage row in its valid 1..100 range)
and plan, checkQuotaLimit allows the request if and only if the in-window
credit sum is strictly below the effective limit; in particular a credential
whose in-window credits equal the effective limit exactly is denied. -/
theorem C1_quota_decision (quotaPercentageRow : Option Nat) (records : List UsageRecord)
    (now : ℤ) (planType : PlanType)
    (hpct : 1 ≤ quotaPercentageRow.getD 100) :
    ((checkQuotaLimit quotaPercentageRow records now planType).allowed = true ↔
      creditsInWindow records now planType < effectiveLimitOf quotaPercentageRow planType)
    ∧ (creditsInWindow records now planType = effectiveLimitOf quotaPercentageRow planType →
      (checkQuotaLimit quotaPercentageRow records now planType).allowed = false) := by
  have he := effectiveLimit_pos planType (quotaPercentageRow.getD 100) hpct
  have hiff := over_iff_le (creditsInWindow records now planType)
    (effectiveLimitOf quotaPercentageRow planType) he
  refine ⟨allowed_iff_lt quotaPercentageRow records now planType hpct, fun hEq => ?_⟩
  rw [checkQuotaLimit_allowed, decide_eq_true (hiff.mpr (le_of_eq hEq.symm))]
  rfl

/-- Witness for C1: the concrete scenario of the spec — plan pro with
quotaPercentage 20 gives effective limit 2,000,000; in-window usage of
1,500,000 credits is allowed. -/
theorem C1_witness :
    (checkQuotaLimit (some 20) [⟨0, 1500000, 0, ("claude-sonnet-4")⟩] 0 .pro).allowed = true :=
  (C1_quota_decision (some 20) [⟨0, 1500000, 0, ("claude-sonnet-4")⟩] 0 .pro
    (by decide)).1.mpr (by decide)

/-! ## Claim C2 -/

lemma specQuotaDecision_def (pr : Option Nat) (cu : Nat) (pt : PlanType) :
    specQuotaDecision pr cu pt =
      decide (jsRound ((cu : ℚ) / (effectiveLimitOf pr pt : ℚ) * 100) < 100) :=
  rfl

/-- C2 counterexample: the spec's reference decision rounds the percentage
before comparing with 100, so at 9,999,999 of 10,000,000 credits (plan pro,
default percentage) it computes round(99.99999) = 100 and denies, while
checkQuotaLimit compares the unrounded ratio and allows.  The decision is
therefore not decided on the rounded percentage. -/
theorem C2_counterexample :
    specQuotaDecision none 9999999 .pro = false
    ∧ (checkQuotaLimit none [⟨0, 9999999, 0, ("claude-sonnet-4")⟩] 0 .pro).allowed = true
    ∧ creditsInWindow [⟨0, 9999999, 0, ("claude-sonnet-4")⟩] 0 .pro = 9999999 := by
  refine ⟨?_, ?_, by decide⟩
  · rw [specQuotaDecision_def]
    refine decide_eq_false ?_
    have heff : effectiveLimitOf none .pro = 10000000 := by decide
    rw [heff, not_lt, jsRound, Int.le_floor]
    push_cast
    norm_num
  · exact (allowed_iff_lt none [⟨0, 9999999, 0, ("claude-sonnet-4")⟩] 0 .pro
      (by decide)).mpr (by decide)

/-- C2 amended: checkQuotaLimit follows the spec's steps — quotaPercentage
defaulted to 100 when the row is NULL, effectiveLimit floor-scaled, the
reported percentage rounded — except that admission is decided on the
unrounded ratio: the request is allowed exactly when the in-window credits
are strictly below the effective limit; the rounded percentage is reported
only. -/
theorem C2_quota_reference (pr : Option Nat) (records : List UsageRecord)
    (now : ℤ) (pt : PlanType) (hpct : 1 ≤ pr.getD 100) :
    effectiveLimitOf pr pt
        = calculateEffectiveLimit (PLAN_LIMITS pt).creditsPerWindow (pr.getD 100)
    ∧ (checkQuotaLimit pr records now pt).percentages.creditPercentage
        = jsRound ((creditsInWindow records now pt : ℚ) / (effectiveLimitOf pr pt : ℚ) * 100)
    ∧ ((checkQuotaLimit pr records now pt).allowed = true ↔
        creditsInWindow records now pt < effectiveLimitOf pr pt) := by
  exact ⟨rfl, rfl, allowed_iff_lt pr records now pt hpct⟩

/-- Witness for C2 amended: plan pro, percentage row NULL (default 100),
one in-window record of 9,999,999 credits: the request is allowed. -/
theorem C2_witness :
    (checkQuotaLimit none [⟨0, 9999999, 0, ("m")⟩] 0 .pro).allowed = true :=
  (C2_quota_reference none [⟨0, 9999999, 0, ("m")⟩] 0 .pro (by decide)).2.2.mpr (by decide)

/-! ## Claim C3 -/

lemma getModelWeight_pos (model : String) : 0 < getModelWeight model := by
  simp only [getModelWeight]
  split_ifs <;> norm_num

/-- C3: the credit cost equals the ceiling of weight times tokens, with the
weight chosen by case-insensitive substring match in source order (opus 5,
then sonnet 1, then haiku 1/4, otherwise the sonnet weight 1); the cost is
at least 1 whenever the weighted amount is nonzero, and 0 when tokens is 0. -/
theorem C3_credit_model (model : String) (tokens : Nat) :
    calculateCreditsUsed model tokens = ⌈getModelWeight model * (tokens : ℚ)⌉
    ∧ (jsIncludes (jsToLower model) (jsToLower ("opus")) = true →
        getModelWeight model = 5)
    ∧ (jsIncludes (jsToLower model) (jsToLower ("opus")) = false →
        jsIncludes (jsToLower model) (jsToLower ("sonnet")) = true →
        getModelWeight model = 1)
    ∧ (jsIncludes (jsToLower model) (jsToLower ("opus")) = false →
        jsIncludes (jsToLower model) (jsToLower ("sonnet")) = false →
        jsIncludes (jsToLower model) (jsToLower ("haiku")) = true →
        getModelWeight model = 1 / 4)
    ∧ (jsIncludes (jsToLower model) (jsToLower ("opus")) = false →
        jsIncludes (jsToLower model) (jsToLower ("sonnet")) = false →
        jsIncludes (jsToLower model) (jsToLower ("haiku")) = false →
        getModelWeight model = 1)
    ∧ (getModelWeight model * (tokens : ℚ) ≠ 0 → 1 ≤ calculateCreditsUsed model tokens)
    ∧ (tokens = 0 → calculateCreditsUsed model tokens = 0) := by
  refine ⟨rfl, ?_, ?_, ?_, ?_, ?_, ?_⟩
  · intro h1
    simp [getModelWeight, h1]
  · intro h1 h2
    simp [getModelWeight, h1, h2]
  · intro h1 h2 h3
    simp [getModelWeight, h1, h2, h3]
  · intro h1 h2 h3
    simp [getModelWeight, h1, h2, h3]
  · intro hne
    have hw := getModelWeight_pos model
    have htok : (0 : ℚ) < (tokens : ℚ) := by
      rcases Nat.eq_zero_or_pos tokens with h | h
      · exfalso
        apply hne
        rw [h]
        simp
      · exact_mod_cast h
    have hpos : 0 < getModelWeight model * (tokens : ℚ) := mul_pos hw htok
    have := Int.ceil_pos.mpr hpos
    calc (1 : ℤ) ≤ ⌈getModelWeight model * (tokens : ℚ)⌉ := this
      _ = calculateCreditsUsed model tokens := rfl
  · intro h
    rw [h]
    simp [calculateCreditsUsed]

/-- Witness for C3, on the spec's concrete examples: a 1500-token Opus
request costs 7500 credits (and the nonzero-usage bound applies), a
1500-token Haiku request costs 375, a 3-token Haiku request costs
ceil(0.75) = 1. -/
theorem C3_witness :
    1 ≤ calculateCreditsUsed ("claude-opus-4-20250514") 1500
    ∧ calculateCreditsUsed ("claude-opus-4-20250514") 1500 = 7500
    ∧ calculateCreditsUsed ("claude-haiku-4-20250514") 1500 = 375
    ∧ calculateCreditsUsed ("claude-haiku-4-20250514") 3 = 1 := by
  have hop : getModelWeight ("claude-opus-4-20250514") = 5 :=
    (C3_credit_model ("claude-opus-4-20250514") 0).2.1 (by decide)
  have hhk : getModelWeight ("claude-haiku-4-20250514") = 1 / 4 :=
    (C3_credit_model ("claude-haiku-4-20250514") 0).2.2.2.1 (by decide) (by decide) (by decide)
  refine ⟨?_, ?_, ?_, ?_⟩
  · refine (C3_credit_model ("claude-opus-4-20250514") 1500).2.2.2.2.2.1 ?_
    rw [hop]
    norm_num
  · simp only [calculateCreditsUsed, hop]
    norm_num
  · simp only [calculateCreditsUsed, hhk]
    norm_num
  · simp only [calculateCreditsUsed, hhk]
    norm_num [Int.ceil_eq_iff]

/-! ## Claim C5 -/

/-- C5: getRollingWindowUsage counts exactly the records whose timestamp is
at least `now - windowHours` (in milliseconds): a record exactly
`windowHours` old is included, and a record one millisecond older is
excluded. -/
theorem C5_window_boundary (records : List UsageRecord) (now : ℤ) (windowHours : Nat)
    (r : UsageRecord) :
    ((getRollingWindowUsage records now windowHours).currentCredits
      = ((records.filter fun x =>
          decide (now - (windowHours : ℤ) * 3600000 ≤ x.timestamp)).map
            UsageRecord.creditsUsed).sum)
    ∧ (r.timestamp = now - (windowHours : ℤ) * 3600000 →
        inWindow now windowHours r = true)
    ∧ (r.timestamp = now - (windowHours : ℤ) * 3600000 - 1 →
        inWindow now windowHours r = false) := by
  refine ⟨rfl, fun h => ?_, fun h => ?_⟩
  · simp only [inWindow, windowStartTime, msPerHour, h, decide_eq_true_eq]
    omega
  · simp only [inWindow, windowStartTime, msPerHour, h, decide_eq_false_iff_not, not_le]
    omega

/-- Witness for C5: with a 5-hour window ending at epoch-time 18,000,000 ms,
the record stamped 0 (exactly five hours old) is inside the window. -/
theorem C5_witness :
    inWindow 18000000 5 ⟨0, 100, 0, ("m")⟩ = true :=
  (C5_window_boundary [] 18000000 5 ⟨0, 100, 0, ("m")⟩).2.1 (by decide)

/-! ## Claim C6 -/

lemma foldl_min_le_init (l : List ℤ) (t : ℤ) : l.foldl min t ≤ t := by
  induction l generalizing t with
  | nil => exact le_refl t
  | cons a l ih => exact le_trans (ih (min t a)) (min_le_left t a)

lemma foldl_min_le_mem (l : List ℤ) : ∀ t x : ℤ, x ∈ l → l.foldl min t ≤ x := by
  induction l with
  | nil =>
      intro t x hx
      cases hx
  | cons a l ih =>
      intro t x hx
      rw [List.foldl_cons]
      rcases List.mem_cons.mp hx with h | h
      · subst h
        exact le_trans (foldl_min_le_init l (min t x)) (min_le_right t x)
      · exact ih (min t a) x h

lemma foldl_min_init_or_mem (l : List ℤ) (t : ℤ) :
    l.foldl min t = t ∨ l.foldl min t ∈ l := by
  induction l generalizing t with
  | nil => exact Or.inl rfl
  | cons a l ih =>
      rcases ih (min t a) with h | h
      · rcases le_total t a with hta | hat
        · exact Or.inl (by rw [List.foldl_cons, h, min_eq_left hta])
        · refine Or.inr (List.mem_cons.mpr (Or.inl ?_))
          rw [List.foldl_cons, h, min_eq_right hat]
      · exact Or.inr (List.mem_cons.mpr (Or.inr h))

lemma oldStep_some (t : ℤ) (r : UsageRecord) :
    oldStep (some t) r = some (min t r.timestamp) := by
  simp only [oldStep]
  split_ifs with h
  · rw [min_eq_right (le_of_lt h)]
  · rw [min_eq_left (le_of_not_lt h)]

lemma foldl_oldStep_some (rs : List UsageRecord) (t : ℤ) :
    rs.foldl oldStep (some t) = some ((rs.map UsageRecord.timestamp).foldl min t) := by
  induction rs generalizing t with
  | nil => rfl
  | cons a l ih =>
      rw [List.foldl_cons, oldStep_some, ih, List.map_cons, List.foldl_cons]

lemma oldestOf_eq_none_iff (rs : List UsageRecord) : oldestOf rs = none ↔ rs = [] := by
  cases rs with
  | nil => simp [oldestOf]
  | cons a l =>
      simp only [oldestOf, List.foldl_cons]
      rw [show oldStep none a = some a.timestamp from rfl, foldl_oldStep_some]
      simp

lemma oldestOf_spec (rs : List UsageRecord) (t : ℤ) (h : oldestOf rs = some t) :
    (∃ r ∈ rs, r.timestamp = t) ∧ ∀ r ∈ rs, t ≤ r.timestamp := by
  cases rs with
  | nil => cases h
  | cons a l =>
      rw [oldestOf, List.foldl_cons, show oldStep none a = some a.timestamp from rfl,
        foldl_oldStep_some, Option.some_inj] at h
      constructor
      · rcases foldl_min_init_or_mem (l.map UsageRecord.timestamp) a.timestamp with hc | hc
        · exact ⟨a, List.mem_cons_self a l, by rw [← h, hc]⟩
        · rcases List.mem_map.mp hc with ⟨r, hr, hrt⟩
          exact ⟨r, List.mem_cons_of_mem a hr, by rw [← h, hrt]⟩
      · intro r hr
        rcases List.mem_cons.mp hr with hc | hc
        · rw [← h, hc]
          exact foldl_min_le_init _ _
        · rw [← h]
          exact foldl_min_le_mem _ _ _ (List.mem_map.mpr ⟨r, hc, rfl⟩)

/-- C6: the reset instant computed for the window is the oldest in-window
record timestamp plus windowHours when the window is non-empty (the oldest
tracked timestamp is exactly the minimum of the in-window timestamps), and
now plus windowHours when the window has no records. -/
theorem C6_reset_time (records : List UsageRecord) (now : ℤ) (windowHours : Nat) :
    ((getRollingWindowUsage records now windowHours).oldestRequestTimestamp = none ↔
      records.filter (inWindow now windowHours) = [])
    ∧ (records.filter (inWindow now windowHours) = [] →
        (getRollingWindowUsage records now windowHours).nextResetAt
          = now + (windowHours : ℤ) * msPerHour)
    ∧ ∀ t, (getRollingWindowUsage records now windowHours).oldestRequestTimestamp = some t →
        (∃ r ∈ records.filter (inWindow now windowHours), r.timestamp = t)
        ∧ (∀ r ∈ records.filter (inWindow now windowHours), t ≤ r.timestamp)
        ∧ (getRollingWindowUsage records now windowHours).nextResetAt
            = t + (windowHours : ℤ) * msPerHour := by
  refine ⟨?_, ?_, ?_⟩
  · exact oldestOf_eq_none_iff (records.filter (inWindow now windowHours))
  · intro hemp
    show getNextResetTime (oldestOf (records.filter (inWindow now windowHours))) windowHours now
      = now + (windowHours : ℤ) * msPerHour
    rw [(oldestOf_eq_none_iff _).mpr hemp]
    rfl
  · intro t ht
    have hspec := oldestOf_spec (records.filter (inWindow now windowHours)) t ht
    refine ⟨hspec.1, hspec.2, ?_⟩
    show getNextResetTime (oldestOf (records.filter (inWindow now windowHours))) windowHours now
      = t + (windowHours : ℤ) * msPerHour
    rw [show oldestOf (records.filter (inWindow now windowHours)) = some t from ht]
    rfl

/-- Witness for C6: a single in-window record stamped 0 in a 5-hour window
ending at 18,000,000 ms gives reset instant 0 + 5 hours. -/
theorem C6_witness :
    (getRollingWindowUsage [⟨0, 100, 0, ("m")⟩] 18000000 5).nextResetAt
      = 0 + (5 : ℤ) * msPerHour :=
  ((C6_reset_time [⟨0, 100, 0, ("m")⟩] 18000000 5).2.2 0 (by decide)).2.2

/-! ## Pricing (src/pricing.ts) -/

inductive ModelType
  | opus
  | sonnet
deriving Repr, DecidableEq

/-- Embedding of detectModelType: opus on substring match, sonnet otherwise. -/
def detectModelType (model : String) : ModelType :=
  if jsIncludes (jsToLower model) (jsToLower ("opus")) then .opus else .sonnet

structure PricingRates where
  inputRate : ℚ
  outputRate : ℚ
  cacheWriteRate : ℚ
  cacheReadRate : ℚ
deriving Repr, DecidableEq

def OPUS_PRICING : PricingRates := ⟨15, 75, 75 / 4, 3 / 2⟩

def SONNET_PRICING_SMALL : PricingRates := ⟨3, 15, 15 / 4, 3 / 10⟩

def SONNET_PRICING_LARGE : PricingRates := ⟨6, 45 / 2, 15 / 2, 3 / 5⟩

def CONTEXT_THRESHOLD : Nat := 200000

/-- Token usage tuple of the upstream response; the cache counts are
optional (`|| 0` in the source). -/
structure TokenUsage where
  inputTokens : Nat
  outputTokens : Nat
  cacheCreationInputTokens : Option Nat
  cacheReadInputTokens : Option Nat
deriving Repr, DecidableEq

/-- Embedding of calculateCost: rate table keyed by model class, with the
sonnet tier picked by comparing input + cache tokens with the 200K
threshold (inclusive on the small side); per-million-token rates. -/
def calculateCost (model : String) (usage : TokenUsage) : ℚ :=
  let modelType := detectModelType model
  let cacheCreationTokens := usage.cacheCreationInputTokens.getD 0
  let cacheReadTokens := usage.cacheReadInputTokens.getD 0
  let pricing :=
    match modelType with
    | .opus => OPUS_PRICING
    | .sonnet =>
        if usage.inputTokens + cacheCreationTokens + cacheReadTokens ≤ CONTEXT_THRESHOLD
        then SONNET_PRICING_SMALL
        else SONNET_PRICING_LARGE
  (usage.inputTokens : ℚ) / 1000000 * pricing.inputRate
    + (usage.outputTokens : ℚ) / 1000000 * pricing.outputRate
    + (cacheCreationTokens : ℚ) / 1000000 * pricing.cacheWriteRate
    + (cacheReadTokens : ℚ) / 1000000 * pricing.cacheReadRate

/-! ## Usage ledger (src/usage.ts) -/

/-- One api_key_usage row: the lifetime aggregate of a key. -/
structure AggregateRow where
  inputTokens : Nat
  outputTokens : Nat
  cacheCreationTokens : Nat
  cacheReadTokens : Nat
  totalTokens : Nat
  totalCost : ℚ
  lastRequestAt : Option ℤ
  requestCount : Nat
deriving Repr, DecidableEq

/-- The argument of updateKeyUsage (interface UsageUpdate). -/
structure UsageUpdate where
  model : String
  inputTokens : Nat
  outputTokens : Nat
  cacheCreationInputTokens : Option Nat
  cacheReadInputTokens : Option Nat
deriving Repr, DecidableEq

/-- The state updateKeyUsage can touch: the key's aggregate row and its
usage-history rows. -/
structure UsageDb where
  aggregate : AggregateRow
  history : List UsageRecord
deriving Repr, DecidableEq

/-- Embedding of updateKeyUsage (src/usage.ts lines 38-81): the function
issues exactly one SQL statement, an UPDATE of api_key_usage that adds the
token counts and cost, sets last_request_at and increments request_count.
It issues no INSERT into api_key_usage_history and opens no transaction, so
the history rows are untouched. -/
def updateKeyUsage (db : UsageDb) (usage : UsageUpdate) (nowSec : ℤ) : UsageDb :=
  let cacheCreation := usage.cacheCreationInputTokens.getD 0
  let cacheRead := usage.cacheReadInputTokens.getD 0
  let totalTokens := usage.inputTokens + usage.outputTokens + cacheCreation + cacheRead
  let totalCost := calculateCost usage.model
    ⟨usage.inputTokens, usage.outputTokens, some cacheCreation, some cacheRead⟩
  { aggregate :=
      { inputTokens := db.aggregate.inputTokens + usage.inputTokens
        outputTokens := db.aggregate.outputTokens + usage.outputTokens
        cacheCreationTokens := db.aggregate.cacheCreationTokens + cacheCreation
        cacheReadTokens := db.aggregate.cacheReadTokens + cacheRead
        totalTokens := db.aggregate.totalTokens + totalTokens
        totalCost := db.aggregate.totalCost + totalCost
        lastRequestAt := some nowSec
        requestCount := db.aggregate.requestCount + 1 }
    history := db.history }

/-! ## Claim C4 -/

/-- C4: updateKeyUsage never inserts a usage-history record — for every
database state and update it leaves the history rows exactly as they were
while incrementing the aggregate, and in particular at the failing input of
the repository's own history test (sonnet, 1000 input, 500 output tokens on
a fresh key) it leaves zero history rows where the test expects one.  This
contradicts the claimed atomic dual write: there is no history insert and
no transaction around the single aggregate UPDATE. -/
theorem C4_no_history_insert (db : UsageDb) (u : UsageUpdate) (nowSec : ℤ) :
    (updateKeyUsage db u nowSec).history = db.history
    ∧ (updateKeyUsage db u nowSec).aggregate.requestCount = db.aggregate.requestCount + 1
    ∧ (updateKeyUsage ⟨⟨0, 0, 0, 0, 0, 0, none, 0⟩, []⟩
        ⟨("claude-3-5-sonnet-20241022"), 1000, 500, none, none⟩ 0).history.length = 0 :=
  ⟨rfl, rfl, rfl⟩

/-! ## Proxy response headers (src/proxy.ts) -/

/-- The quota-state headers the proxy attaches to a response. -/
structure RateHeaders where
  rateLimitLimit : Nat
  rateLimitRemaining : ℤ
  rateLimitReset : ℤ
  quotaPercentage : Option ℤ
deriving Repr, DecidableEq

/-- Embedding of the header block of the success path (proxy.ts step 10):
`X-RateLimit-Limit` is `PLAN_LIMITS[planType].creditsPerWindow` — the raw
plan limit — and remaining is `max(0, planLimit - currentCredits)`. -/
def successHeaders (planType : PlanType) (q : QuotaCheckResult) : RateHeaders :=
  let planLimit := (PLAN_LIMITS planType).creditsPerWindow
  { rateLimitLimit := planLimit
    rateLimitRemaining := max 0 ((planLimit : ℤ) - (q.usage.currentCredits : ℤ))
    rateLimitReset := q.resetTime
    quotaPercentage := some q.percentages.creditPercentage }

/-- Embedding of the header block of the 429 denial path (proxy.ts step 4):
same raw plan limit, remaining pinned to 0, no percentage header. -/
def denialHeaders (planType : PlanType) (q : QuotaCheckResult) : RateHeaders :=
  { rateLimitLimit := (PLAN_LIMITS planType).creditsPerWindow
    rateLimitRemaining := 0
    rateLimitReset := q.resetTime
    quotaPercentage := none }

/-! ## Claim C7 -/

/-- C7 counterexample: with plan pro and quotaPercentage 20 the effective
limit is 2,000,000 but the X-RateLimit-Limit header carries the raw plan
limit 10,000,000, so the header does not equal the credential's effective
(percentage-scaled) limit. -/
theorem C7_counterexample :
    (successHeaders .pro (checkQuotaLimit (some 20) [] 0 .pro)).rateLimitLimit = 10000000
    ∧ effectiveLimitOf (some 20) .pro = 2000000
    ∧ (successHeaders .pro (checkQuotaLimit (some 20) [] 0 .pro)).rateLimitLimit
        ≠ effectiveLimitOf (some 20) .pro :=
  ⟨rfl, by decide, by decide⟩

/-- C7 amended: on both the success and the denial path the
X-RateLimit-Limit header equals the plan's raw creditsPerWindow (not scaled
by the quota percentage), and X-RateLimit-Remaining equals
max(0, planLimit - in-window credits) on success and 0 on denial. -/
theorem C7_headers (planType : PlanType) (pr : Option Nat) (records : List UsageRecord)
    (now : ℤ) :
    (successHeaders planType (checkQuotaLimit pr records now planType)).rateLimitLimit
        = (PLAN_LIMITS planType).creditsPerWindow
    ∧ (successHeaders planType (checkQuotaLimit pr records now planType)).rateLimitRemaining
        = max 0 (((PLAN_LIMITS planType).creditsPerWindow : ℤ)
            - (creditsInWindow records now planType : ℤ))
    ∧ (denialHeaders planType (checkQuotaLimit pr records now planType)).rateLimitLimit
        = (PLAN_LIMITS planType).creditsPerWindow
    ∧ (denialHeaders planType (checkQuotaLimit pr records now planType)).rateLimitRemaining
        = 0 :=
  ⟨rfl, rfl, rfl, rfl⟩

/-! ## Claim C8 -/

/-- What the proxy sees of the upstream call. -/
structure UpstreamResponse where
  status : Nat
  ok : Bool
  usage : Option UsageUpdate
  body : String
deriving Repr, DecidableEq

/-- The response the proxy returns to the caller. -/
structure ProxyResponse where
  status : Nat
  body : String
  headers : RateHeaders
deriving Repr, DecidableEq

/-- Embedding of proxy.ts step 9: usage is recorded only when the upstream
response is ok and carries usage totals; a throwing updateKeyUsage is
caught (log only), leaving the database unchanged. -/
def recordUsageStep (db : UsageDb) (resp : UpstreamResponse) (recordingFails : Bool)
    (nowSec : ℤ) : UsageDb :=
  if resp.ok then
    match resp.usage with
    | some u => if recordingFails then db else updateKeyUsage db u nowSec
    | none => db
  else db

/-- Embedding of proxy.ts steps 9-10: record usage (failure caught), then
return the upstream body and status with the quota headers. -/
def respondAfterUpstream (planType : PlanType) (q : QuotaCheckResult) (db : UsageDb)
    (resp : UpstreamResponse) (recordingFails : Bool) (nowSec : ℤ) :
    ProxyResponse × UsageDb :=
  let db2 := recordUsageStep db resp recordingFails nowSec
  ({ status := resp.status, body := resp.body, headers := successHeaders planType q }, db2)

/-- C8: the response returned to the caller is the same whether or not the
usage-recording write fails — a recording failure never converts the
successful upstream response into an error; the upstream status and body
pass through unchanged. -/
theorem C8_recording_failure_isolated (planType : PlanType) (q : QuotaCheckResult)
    (db : UsageDb) (resp : UpstreamResponse) (nowSec : ℤ) :
    (respondAfterUpstream planType q db resp true nowSec).1
        = (respondAfterUpstream planType q db resp false nowSec).1
    ∧ (respondAfterUpstream planType q db resp true nowSec).1.status = resp.status
    ∧ (respondAfterUpstream planType q db resp true nowSec).1.body = resp.body :=
  ⟨rfl, rfl, rfl⟩

/-! ## Claim C9 (src/oauth.ts) -/

/-- One oauth_tokens row (keyed by user id; one per tenant). -/
structure OAuthTokenRow where
  accessToken : String
  refreshToken : String
  expiresAt : ℤ
deriving Repr, DecidableEq

/-- Embedding of saveOAuthTokens: an upsert keyed by the user id, which
overwrites the stored access/refresh pair and expiry whatever was there. -/
def saveOAuthTokens (stored : Option OAuthTokenRow) (tokens : OAuthTokenRow) :
    Option OAuthTokenRow :=
  match stored with
  | _ => some tokens

inductive TokenOutcome
  | ok (accessToken : String)
  | failed (error : String)
deriving Repr, DecidableEq

/-- Embedding of ensureValidToken.  `refreshOutcome` is the result of the
upstream refresh network call (performed only when the stored token is
expired): `none` embeds a failed refresh, `some fresh` a successful one.
Returns the outcome together with the stored row after the call. -/
def ensureValidToken (stored : Option OAuthTokenRow) (now : ℤ)
    (refreshOutcome : Option OAuthTokenRow) : TokenOutcome × Option OAuthTokenRow :=
  match stored with
  | none => (.failed ("No OAuth tokens found"), none)
  | some tok =>
      if tok.expiresAt < now then
        match refreshOutcome with
        | none => (.failed ("Failed to refresh token"), some tok)
        | some fresh => (.ok fresh.accessToken, saveOAuthTokens (some tok) fresh)
      else (.ok tok.accessToken, some tok)

/-- C9: when the stored credential is expired and the refresh fails,
ensureValidToken returns a failure and the stored row (access token,
refresh token and expiry) is left exactly as it was — not deleted; when the
refresh succeeds, the stored row is overwritten with the fresh pair and
expiry by the upsert and the new access token is returned. -/
theorem C9_refresh_handling (tok fresh : OAuthTokenRow) (now : ℤ)
    (hexp : tok.expiresAt < now) :
    (ensureValidToken (some tok) now none).1 = .failed ("Failed to refresh token")
    ∧ (ensureValidToken (some tok) now none).2 = some tok
    ∧ (ensureValidToken (some tok) now (some fresh)).1 = .ok fresh.accessToken
    ∧ (ensureValidToken (some tok) now (some fresh)).2 = some fresh := by
  refine ⟨?_, ?_, ?_, ?_⟩ <;> simp [ensureValidToken, hexp, saveOAuthTokens]

/-- Witness for C9: a token that expired at time 0, used at time 1, with a
failing refresh, is preserved unchanged. -/
theorem C9_witness :
    (ensureValidToken (some ⟨("at"), ("rt"), 0⟩) 1 none).2 = some ⟨("at"), ("rt"), 0⟩ :=
  (C9_refresh_handling ⟨("at"), ("rt"), 0⟩ ⟨("at2"), ("rt2"), 5⟩ 1 (by decide)).2.1

/-! ## Claim C10 -/

/-- Embedding of `userResult.rows[0]?.plan_type || 'pro'`: the outer
Option is the user row (none when no row was found), the inner Option the
plan_type column (none when NULL); both falsy cases fall back to pro. -/
def resolvePlanType (row : Option (Option PlanType)) : PlanType :=
  match row with
  | none => .pro
  | some none => .pro
  | some (some p) => p

/-- C10: when the key owner's user row is missing or carries no plan type,
the admission pipeline computes the quota decision and the response headers
exactly as it would for the pro plan — the request is not rejected for a
missing plan. -/
theorem C10_plan_default (pr : Option Nat) (records : List UsageRecord) (now : ℤ) :
    resolvePlanType none = .pro
    ∧ resolvePlanType (some none) = .pro
    ∧ checkQuotaLimit pr records now (resolvePlanType none)
        = checkQuotaLimit pr records now .pro
    ∧ checkQuotaLimit pr records now (resolvePlanType (some none))
        = checkQuotaLimit pr records now .pro
    ∧ successHeaders (resolvePlanType none)
          (checkQuotaLimit pr records now (resolvePlanType none))
        = successHeaders .pro (checkQuotaLimit pr records now .pro) :=
  ⟨rfl, rfl, rfl, rfl, rfl⟩
